import Mathlib

/-!
Verification of the Bio-RAG repository (biomedical paper RAG platform) against
its natural-language specification.  The frontend TypeScript under
`frontend/src` is embedded directly; the Python backend services
(`backend/app/services/rag.py`, `embedding.py`, `recommendation.py`, the Redis
response cache) are not part of the source tree available here, so those
components are modelled from the specification text (each such definition is
marked `Modelled from the spec:`).

Numbers are modelled as `ℚ` (scores, confidences) or `Nat`/`Int` (counts,
times); JavaScript strings as `String`; absent/undefined values as `Option`.
-/

namespace BioRag

/-! ### Recommendation scorer (spec §4.8)

Modelled from the spec: `backend/app/services/recommendation.py` is not in the
available source tree.  The spec defines the hybrid score as
`0.7 * content_similarity + 0.3 * citation_similarity`, with the weights
configurable and 70/30 as the documented default. -/

/-- Modelled from the spec: the hybrid recommendation score, a weighted blend
of content similarity and citation-graph similarity with configurable
weights. -/
def hybridScore (wContent wCitation content citation : ℚ) : ℚ :=
  wContent * content + wCitation * citation

/-- Modelled from the spec: the documented default content weight (70%). -/
def defaultContentWeight : ℚ := 7 / 10

/-- Modelled from the spec: the documented default citation weight (30%). -/
def defaultCitationWeight : ℚ := 3 / 10

/-! ### Auth store logout (`frontend/src/hooks/useAuth.ts`,
`frontend/src/services/api.ts`) -/

/-- `User` from `frontend/src/services/api.ts`. -/
structure User where
  id : String
  email : String
  name : Option String
  is_active : Bool
  created_at : String
deriving DecidableEq, Repr

/-- The browser `localStorage` keys the auth code touches. -/
structure AuthStorage where
  access_token : Option String
  refresh_token : Option String
deriving DecidableEq, Repr

/-- The zustand auth-store state from `useAuth.ts` (the fields `logout`
touches plus the flags it leaves alone). -/
structure AuthState where
  user : Option User
  isAuthenticated : Bool
  isLoading : Bool
  error : Option String
deriving DecidableEq, Repr

/-- Combined client-side state visible to the auth code. -/
structure ClientState where
  storage : AuthStorage
  state : AuthState
deriving DecidableEq, Repr

/-- `authApi.logout` from `services/api.ts`: it first awaits
`POST /auth/logout` (which may reject, modelled by `serverOk = false`; a
rejection aborts the function before its own `removeItem` calls run), and only
on success removes both tokens from `localStorage`. -/
def authApiLogout (serverOk : Bool) (s : ClientState) : Except Unit ClientState :=
  if serverOk then
    Except.ok { s with storage := { access_token := none, refresh_token := none } }
  else
    Except.error ()

/-- The store `logout` action from `useAuth.ts`: `try { await authApi.logout() }
finally { localStorage.removeItem(access_token); localStorage.removeItem(refresh_token);
set(user = null, isAuthenticated = false) }`.  The finally-block cleanup runs on
both paths; a server-side rejection still propagates to the caller afterwards.
Returns the settled promise outcome together with the final client state. -/
def logout (serverOk : Bool) (s : ClientState) : Except Unit Unit × ClientState :=
  let attempt := authApiLogout serverOk s
  let afterTry := match attempt with
    | Except.ok s' => s'
    | Except.error _ => s
  let cleaned : ClientState :=
    { storage := { access_token := none, refresh_token := none },
      state := { afterTry.state with user := none, isAuthenticated := false } }
  match attempt with
  | Except.ok _ => (Except.ok (), cleaned)
  | Except.error e => (Except.error e, cleaned)

/-! ### Trends page fallback (`frontend/src/pages/trends.tsx`) -/

/-- `KeywordTrend` from `trends.tsx`. -/
structure KeywordTrend where
  keyword : String
  count : Nat
  growth : ℚ
deriving DecidableEq, Repr

/-- The runtime shape of the analytics response consumed by `trends.tsx`.
The TypeScript interface declares `keywords : KeywordTrend[]`, but the value
comes from an unchecked API payload, so the field may be absent at runtime;
that is modelled with `Option`. -/
structure TrendData where
  keywords : Option (List KeywordTrend)
  period : Option String
deriving DecidableEq, Repr

/-- The hardcoded `mockTrends` list from `trends.tsx`, verbatim. -/
def mockTrends : List KeywordTrend :=
  [ { keyword := "immunotherapy", count := 1250, growth := 152 / 10 },
    { keyword := "CRISPR", count := 980, growth := 225 / 10 },
    { keyword := "COVID-19", count := 890, growth := -(83 / 10) },
    { keyword := "CAR-T cells", count := 720, growth := 187 / 10 },
    { keyword := "gene editing", count := 650, growth := 124 / 10 },
    { keyword := "mRNA vaccine", count := 580, growth := 251 / 10 },
    { keyword := "checkpoint inhibitors", count := 540, growth := 98 / 10 },
    { keyword := "precision medicine", count := 480, growth := 142 / 10 } ]

/-- `displayTrends = trends?.keywords || mockTrends` from `trends.tsx`:
`trends` is `null` when the fetch failed (the catch branch never calls
`setTrends`), and optional chaining plus `||` falls back to the mock list when
`trends` is `null` or its `keywords` field is absent.  A present (even empty)
array is truthy in JavaScript and is kept as is. -/
def displayTrends (trends : Option TrendData) : List KeywordTrend :=
  match trends with
  | none => mockTrends
  | some t =>
    match t.keywords with
    | none => mockTrends
    | some ks => ks

/-! ### Retriever (spec §4.4)

Modelled from the spec: the retrieval step of `backend/app/services/rag.py`
is not in the available source tree.  The spec: fetch `k` candidates from the
Vector Index (`2k` when reranking), resort by rerank score descending when
reranking, no per-paper deduplication, truncate to `k`; fewer than `k`
available candidates is not an error.  Candidates are abstract (`α`); the
Vector Index is modelled as the ranked list its similarity search would
return, so its `search` is a prefix of that ranking. -/

/-- Modelled from the spec: the Vector Index nearest-neighbour search —
`index` is the full candidate ranking by descending cosine similarity, and a
search for `n` candidates returns the best `n` (all of them when fewer are
stored). -/
def indexSearch {α : Type} (index : List α) (n : Nat) : List α :=
  index.take n

/-- Modelled from the spec: resort a candidate pool by rerank score
descending (stable insertion sort). -/
def sortDesc {α : Type} (f : α → ℚ) (l : List α) : List α :=
  List.insertionSort (fun a b => f b ≤ f a) l

/-- Modelled from the spec: `retrieve(query, k, use_rerank)` — over-fetch to
`2k` when reranking, rerank-resort when enabled, truncate to `k`.  The rerank
model is the scoring function `f`. -/
def retrieve {α : Type} (index : List α) (f : α → ℚ) (k : Nat)
    (useRerank : Bool) : List α :=
  let pool := indexSearch index (if useRerank then 2 * k else k)
  let ordered := if useRerank then sortDesc f pool else pool
  ordered.take k

/-! ### Chunker (spec §4.1)

Modelled from the spec: the `TextChunker` of
`backend/app/services/embedding.py` is not in the available source tree.  The
spec (and the repository's CLAUDE.md) fix fixed-size chunking into windows of
`CHUNK_SIZE` tokens with `CHUNK_OVERLAP` trailing tokens repeated at the start
of the next window, the final window possibly shorter; a text no longer than
one window yields exactly one chunk, and empty input yields no chunks.
Tokens are abstract (`α`); the tokenizer boundary rule is left open by the
spec. -/

/-- The configured maximum chunk size, in tokens (CLAUDE.md: 512). -/
def CHUNK_SIZE : Nat := 512

/-- The configured chunk overlap, in tokens (CLAUDE.md: 50). -/
def CHUNK_OVERLAP : Nat := 50

/-- Modelled from the spec: fixed-size windowing with overlap, written with
explicit fuel (one unit per window suffices; `tokens.length` is always
enough) so the function is structurally recursive. -/
def chunkFuel {α : Type} : Nat → List α → List (List α)
  | _, [] => []
  | 0, _ :: _ => []
  | fuel + 1, c :: cs =>
    if (c :: cs).length ≤ CHUNK_SIZE then [c :: cs]
    else (c :: cs).take CHUNK_SIZE ::
      chunkFuel fuel ((c :: cs).drop (CHUNK_SIZE - CHUNK_OVERLAP))

/-- Modelled from the spec: split a token sequence into overlapping chunks of
at most `CHUNK_SIZE` tokens, each window starting `CHUNK_SIZE - CHUNK_OVERLAP`
tokens after the previous one. -/
def chunkText {α : Type} (tokens : List α) : List (List α) :=
  chunkFuel tokens.length tokens

/-- Concatenation of chunks minus the overlap: the first chunk in full, every
later chunk with its leading `CHUNK_OVERLAP` repeated tokens removed. -/
def reconstruct {α : Type} : List (List α) → List α
  | [] => []
  | c :: cs => c ++ (cs.map (fun x => x.drop CHUNK_OVERLAP)).flatten

/-! ### Citation validator (spec §4.6)

Modelled from the spec: the validation step of `backend/app/services/rag.py`
is not in the available source tree.  The spec: extract every
`[PMID: x]`-style marker from the answer text; a marker is valid iff `x` is an
identifier present in the evidence set; confidence is 1.0 when there are no
markers and the answer explicitly declines (whether the answer declines is an
input flag here, since the spec fixes no particular phrase detection),
`valid / total` when there is at least one marker, and a low fixed penalty
when there are no markers and the answer does not decline. -/

/-- The citation marker opener, `[PMID: ` — the wire format of spec §6. -/
def markerOpen : List Char := "[PMID: ".data

/-- Scan up to the closing `]`, returning the identifier characters and the
remainder of the text after the bracket; `none` when the bracket never
closes. -/
def takeUntilClose : List Char → Option (List Char × List Char)
  | [] => none
  | c :: cs =>
    if c = ']' then some ([], cs)
    else
      match takeUntilClose cs with
      | none => none
      | some (m, rest) => some (c :: m, rest)

/-- Modelled from the spec: extract every `[PMID: x]` marker identifier, left
to right.  Structured with explicit fuel (one unit per character suffices, as
each step consumes at least one character) so the function is structurally
recursive. -/
def extractMarkersFuel : Nat → List Char → List String
  | 0, _ => []
  | _, [] => []
  | fuel + 1, c :: cs =>
    if markerOpen.isPrefixOf (c :: cs) then
      match takeUntilClose ((c :: cs).drop markerOpen.length) with
      | some (m, rest) => String.mk m :: extractMarkersFuel fuel rest
      | none => extractMarkersFuel fuel cs
    else extractMarkersFuel fuel cs

/-- Extract every `[PMID: x]` marker identifier from an answer text. -/
def extractMarkers (answer : String) : List String :=
  extractMarkersFuel answer.data.length answer.data

/-- Modelled from the spec: the low fixed penalty confidence for an answer
with no citation markers that does not decline.  The spec fixes no numeric
value, only that it is a fixed low score. -/
def penaltyScore : ℚ := 3 / 10

/-- The result of citation validation: a confidence score and the cited
identifiers. -/
structure ValidationResult where
  confidence : ℚ
  citedIds : List String
deriving DecidableEq, Repr

/-- Modelled from the spec: `validate(answer_text, evidence)`.  `declines`
says whether the answer explicitly declines for lack of evidence. -/
def validate (answer : String) (declines : Bool) (evidence : List String) :
    ValidationResult :=
  let markers := extractMarkers answer
  let valid := markers.filter (fun m => decide (m ∈ evidence))
  if markers.isEmpty then
    if declines then ⟨1, []⟩ else ⟨penaltyScore, []⟩
  else
    ⟨(valid.length : ℚ) / (markers.length : ℚ), valid.dedup⟩

/-! ### Response cache (spec §4.7)

Modelled from the spec: the Redis-backed RAG response cache is not in the
available source tree.  The spec requires `get`/`put` keyed by a fingerprint,
entries expiring after a ttl (7 days in the reference deployment), with lazy
or active expiry, and an expired entry never returned. -/

/-- A cache entry: fingerprint key, stored response, absolute expiry time. -/
structure CacheEntry (α : Type) where
  fp : String
  response : α
  expiresAt : Nat

/-- Modelled from the spec: `put(fingerprint, response, ttl)` at time `now`
stores the response under the fingerprint (overwriting any previous entry for
the same fingerprint) with expiry `now + ttl`. -/
def cachePut {α : Type} (c : List (CacheEntry α)) (fp : String) (r : α)
    (ttl now : Nat) : List (CacheEntry α) :=
  ⟨fp, r, now + ttl⟩ :: c.filter (fun e => e.fp ≠ fp)

/-- Modelled from the spec: `get(fingerprint)` at time `now`, with lazy
expiry — the entry is returned only if it has not yet expired. -/
def cacheGet {α : Type} (c : List (CacheEntry α)) (fp : String) (now : Nat) :
    Option α :=
  match c.find? (fun e => e.fp == fp) with
  | some e => if now < e.expiresAt then some e.response else none
  | none => none

/-- Modelled from the spec: active (background) eviction, dropping every
entry whose expiry has passed. -/
def cacheEvict {α : Type} (c : List (CacheEntry α)) (now : Nat) :
    List (CacheEntry α) :=
  c.filter (fun e => now < e.expiresAt)

/-- Modelled from the spec: the reference deployment's RAG response ttl,
7 days in seconds. -/
def ragCacheTtl : Nat := 7 * 24 * 60 * 60

/-! ### RAG response shape at the client boundary
(`frontend/src/services/api.ts`, consumed by `ChatInterface`) -/

/-- An element of `RAGResponse.sources` from `services/api.ts`; the
per-source identifier field is named `pmid` there. -/
structure RAGSource where
  pmid : String
  title : String
  relevance : ℚ
  excerpt : String
  «section» : Option String
deriving DecidableEq, Repr

/-- `RAGResponse` from `services/api.ts` — the shape `ChatInterface` reads
(`answer`, `sources`, `confidence`, `session_id`) plus the remaining declared
fields. -/
structure RAGResponse where
  answer : String
  sources : List RAGSource
  confidence : ℚ
  response_time_ms : ℚ
  session_id : Option String
  chunks_used : Nat
deriving DecidableEq, Repr

/-- The query-output shape written in spec §6, per source:
`{ identifier, title, relevance, excerpt, section? }`. -/
structure SpecSource where
  identifier : String
  title : String
  relevance : ℚ
  excerpt : String
  «section» : Option String
deriving DecidableEq, Repr

/-- The query-output shape written in spec §6:
`{ answer, sources, confidence, response_time_ms, session_id?, chunks_used }`. -/
structure SpecRAGResponse where
  answer : String
  sources : List SpecSource
  confidence : ℚ
  response_time_ms : ℚ
  session_id : Option String
  chunks_used : Nat
deriving DecidableEq, Repr

/-- Read a code source as the spec shape: the code field `pmid` carries the
spec field `identifier`. -/
def sourceToSpec (s : RAGSource) : SpecSource :=
  ⟨s.pmid, s.title, s.relevance, s.excerpt, s.«section»⟩

/-- Build the code source from the spec shape. -/
def sourceOfSpec (s : SpecSource) : RAGSource :=
  ⟨s.identifier, s.title, s.relevance, s.excerpt, s.«section»⟩

/-- Read a code RAG response as the spec §6 query-output shape. -/
def ragToSpec (r : RAGResponse) : SpecRAGResponse :=
  ⟨r.answer, r.sources.map sourceToSpec, r.confidence, r.response_time_ms,
    r.session_id, r.chunks_used⟩

/-- Build the code RAG response from the spec §6 query-output shape. -/
def ragOfSpec (r : SpecRAGResponse) : RAGResponse :=
  ⟨r.answer, r.sources.map sourceOfSpec, r.confidence, r.response_time_ms,
    r.session_id, r.chunks_used⟩

/-! ### Search response shape at the client boundary
(`frontend/src/services/api.ts`, rendered by `PaperCard`) -/

/-- `SearchResult` from `services/api.ts`. -/
structure SearchResult where
  pmid : String
  title : String
  abstract : Option String
  relevance_score : ℚ
  publication_date : Option String
  journal : Option String
  authors : List String
  citation_count : Nat
  keywords : List String
deriving DecidableEq, Repr

/-- `SearchResponse` from `services/api.ts`. -/
structure SearchResponse where
  results : List SearchResult
  total : Nat
  page : Nat
  query_time_ms : ℚ
  query : String
deriving DecidableEq, Repr

/-- The search-output shape written in spec §6: the delivered papers'
relevance scores in order, plus the pagination metadata
`total`, `page`, `query_time_ms`. -/
structure SpecSearchOutput where
  relevance_scores : List ℚ
  total : Nat
  page : Nat
  query_time_ms : ℚ
deriving DecidableEq, Repr

/-- Read a code search response as the spec §6 search-output shape. -/
def searchSpecView (r : SearchResponse) : SpecSearchOutput :=
  ⟨r.results.map (fun p => p.relevance_score), r.total, r.page, r.query_time_ms⟩

/-- `relevancePercent` from `PaperCard`:
`Math.round(paper.relevance_score * 100)` (JavaScript `Math.round` rounds
half toward positive infinity, as does Mathlib's `round`). -/
def relevancePercent (paper : SearchResult) : ℤ :=
  round (paper.relevance_score * 100)

/-! ### Search request parameters (`searchApi.search` in
`frontend/src/services/api.ts`) -/

/-- The `options` object of `searchApi.search`.  A caller omitting the whole
object is the all-`none` record. -/
structure SearchOptions where
  limit : Option Int
  offset : Option Int
  year_start : Option Int
  year_end : Option Int
  journals : Option String
  sort_by : Option String
  rerank : Option Bool
deriving DecidableEq, Repr

/-- JavaScript truthiness of an optional number: `undefined` and `0` are
falsy, all other integers truthy.  (`NaN`, the one other falsy number, does
not arise for integer options.) -/
def numTruthy : Option Int → Bool
  | none => false
  | some n => decide (n ≠ 0)

/-- JavaScript truthiness of an optional string: `undefined` and the empty
string are falsy. -/
def strTruthy : Option String → Bool
  | none => false
  | some s => decide (s ≠ "")

/-- A numeric query parameter appended only when its option is truthy, with
the number rendered by `toString` — `if (options?.key) params.append(...)`. -/
def numParam (key : String) : Option Int → List (String × String)
  | none => []
  | some n => if n = 0 then [] else [(key, toString n)]

/-- A string query parameter appended only when its option is truthy. -/
def strParam (key : String) : Option String → List (String × String)
  | none => []
  | some s => if s = "" then [] else [(key, s)]

/-- JavaScript `Boolean.prototype.toString`. -/
def boolStr (b : Bool) : String :=
  if b then "true" else "false"

/-- The rerank parameter is appended whenever the option is defined —
`if (options?.rerank !== undefined)` — so `false` is sent explicitly. -/
def rerankParam : Option Bool → List (String × String)
  | none => []
  | some b => [("rerank", boolStr b)]

/-- The full parameter list built by `searchApi.search`:
`new URLSearchParams({ q: query })` followed by the conditional appends, in
source order. -/
def buildSearchParams (q : String) (o : SearchOptions) :
    List (String × String) :=
  ("q", q) ::
    (numParam "limit" o.limit ++ numParam "offset" o.offset ++
      numParam "year_start" o.year_start ++ numParam "year_end" o.year_end ++
      strParam "journals" o.journals ++ strParam "sort_by" o.sort_by ++
      rerankParam o.rerank)

/-- Whether the parameter list carries a parameter named `k`. -/
def hasKey (ps : List (String × String)) (k : String) : Bool :=
  ps.any (fun p => p.1 == k)

/-! ## Theorems -/

/-- Auxiliary coverage invariant: dropping the leading overlap of every chunk
and concatenating reproduces the input minus its first `CHUNK_OVERLAP`
tokens. -/
theorem chunkFuel_flatten_drop {α : Type} :
    ∀ (fuel : Nat) (s : List α), s.length ≤ fuel →
      ((chunkFuel fuel s).map (fun x => x.drop CHUNK_OVERLAP)).flatten
        = s.drop CHUNK_OVERLAP := by
  intro fuel
  induction fuel with
  | zero =>
    intro s hs
    rw [List.length_eq_zero.mp (Nat.le_zero.mp hs)]
    simp [chunkFuel]
  | succ fuel ih =>
    intro s hs
    match s with
    | [] => simp [chunkFuel]
    | c :: cs =>
      by_cases hlen : (c :: cs).length ≤ CHUNK_SIZE
      · rw [chunkFuel, if_pos hlen]
        simp
      · rw [chunkFuel, if_neg hlen]
        have hstep : ((c :: cs).drop (CHUNK_SIZE - CHUNK_OVERLAP)).length ≤ fuel := by
          simp only [List.length_drop, List.length_cons] at hs ⊢
          simp only [CHUNK_SIZE, CHUNK_OVERLAP] at *
          omega
        simp only [List.map_cons, List.flatten_cons, ih _ hstep]
        have hdd : ((c :: cs).drop (CHUNK_SIZE - CHUNK_OVERLAP)).drop CHUNK_OVERLAP
            = ((c :: cs).drop CHUNK_OVERLAP).drop (CHUNK_SIZE - CHUNK_OVERLAP) := by
          rw [List.drop_drop, List.drop_drop]
          norm_num [CHUNK_SIZE, CHUNK_OVERLAP]
        rw [hdd, List.drop_take]
        exact List.take_append_drop _ _

/-- One full step of reconstruction: a chunking produced with enough fuel
reassembles, overlap removed, to the exact input. -/
theorem reconstruct_chunkFuel {α : Type} :
    ∀ (fuel : Nat) (s : List α), s.length ≤ fuel →
      reconstruct (chunkFuel fuel s) = s := by
  intro fuel s hs
  match fuel, s with
  | _, [] => simp [chunkFuel, reconstruct]
  | 0, c :: cs => simp at hs
  | fuel + 1, c :: cs =>
    by_cases hlen : (c :: cs).length ≤ CHUNK_SIZE
    · rw [chunkFuel, if_pos hlen]
      simp [reconstruct]
    · rw [chunkFuel, if_neg hlen]
      have hstep : ((c :: cs).drop (CHUNK_SIZE - CHUNK_OVERLAP)).length ≤ fuel := by
        simp only [List.length_drop, List.length_cons] at hs ⊢
        simp only [CHUNK_SIZE, CHUNK_OVERLAP] at *
        omega
      rw [reconstruct, chunkFuel_flatten_drop fuel _ hstep, List.drop_drop]
      have harith : CHUNK_SIZE - CHUNK_OVERLAP + CHUNK_OVERLAP = CHUNK_SIZE := rfl
      rw [harith]
      exact List.take_append_drop _ _

/-- C2: `retrieve` returns at most `k` items; its pool is the Vector Index's
best `k` (no rerank) or `2k` (rerank) candidates, truncated to `k` after the
optional resort; when the index holds at most `k` candidates the result is
exactly the available candidates (as a permutation under reranking, with no
error possible); and the reranked result is ordered by rerank score
descending. -/
theorem C2_retrieve_contract {α : Type} (index : List α) (f : α → ℚ)
    (k : Nat) (u : Bool) :
    (retrieve index f k u).length ≤ k ∧
    (retrieve index f k u).length
      = min k (min (if u then 2 * k else k) index.length) ∧
    retrieve index f k false = (indexSearch index k).take k ∧
    retrieve index f k true = (sortDesc f (indexSearch index (2 * k))).take k ∧
    (index.length ≤ k → (retrieve index f k u).Perm index) ∧
    (retrieve index f k true).Sorted (fun a b => f b ≤ f a) := by
  have hsortlen : ∀ l : List α, (sortDesc f l).length = l.length :=
    fun l => (List.perm_insertionSort _ l).length_eq
  have hlen : (retrieve index f k u).length
      = min k (min (if u then 2 * k else k) index.length) := by
    cases u with
    | false =>
      simp [retrieve, indexSearch, List.length_take]
    | true =>
      simp [retrieve, indexSearch, List.length_take, hsortlen]
  refine ⟨hlen ▸ Nat.min_le_left _ _, hlen, rfl, rfl, ?_, ?_⟩
  · intro h
    cases u with
    | false =>
      simp only [retrieve, indexSearch, if_neg Bool.false_ne_true,
        Bool.false_eq_true, if_false]
      rw [List.take_of_length_le h, List.take_of_length_le h]
    | true =>
      have h2 : index.length ≤ 2 * k := h.trans (by omega)
      show (List.take k (sortDesc f (List.take (2 * k) index))).Perm index
      rw [List.take_of_length_le h2]
      have hs : (sortDesc f index).length ≤ k := by rw [hsortlen]; exact h
      rw [List.take_of_length_le hs]
      exact List.perm_insertionSort _ index
  · haveI : IsTotal α (fun a b => f b ≤ f a) :=
      ⟨fun a b => le_total (f b) (f a)⟩
    haveI : IsTrans α (fun a b => f b ≤ f a) :=
      ⟨fun _ _ _ hab hbc => le_trans hbc hab⟩
    have hsorted : (sortDesc f (indexSearch index (2 * k))).Sorted
        (fun a b => f b ≤ f a) :=
      List.sorted_insertionSort _ _
    exact hsorted.sublist (List.take_sublist _ _)

/-- C2 witness: a two-candidate index queried with `k = 3` — fewer candidates
than requested — returns a permutation of the available candidates (under
reranking) rather than an error. -/
theorem C2_retrieve_contract_witness :
    (retrieve [5, 7] (fun n : Nat => (n : ℚ)) 3 true).Perm [5, 7] :=
  (C2_retrieve_contract [5, 7] (fun n : Nat => (n : ℚ)) 3 true).2.2.2.2.1
    (by decide)

/-- C4: concatenating all chunks minus the overlap reproduces the original
token sequence; non-empty input yields at least one chunk; non-empty input
shorter than `CHUNK_SIZE` yields exactly one chunk; empty input yields the
empty sequence rather than an error. -/
theorem C4_chunker_coverage {α : Type} (tokens : List α) :
    reconstruct (chunkText tokens) = tokens ∧
    (tokens ≠ [] → 1 ≤ (chunkText tokens).length) ∧
    (tokens ≠ [] → tokens.length < CHUNK_SIZE → chunkText tokens = [tokens]) ∧
    chunkText ([] : List α) = [] := by
  refine ⟨reconstruct_chunkFuel _ _ le_rfl, ?_, ?_, rfl⟩
  · intro h
    cases tokens with
    | nil => exact absurd rfl h
    | cons c cs =>
      show 1 ≤ (chunkFuel (c :: cs).length (c :: cs)).length
      rw [show (c :: cs).length = cs.length + 1 from rfl, chunkFuel]
      split <;> simp
  · intro h hshort
    cases tokens with
    | nil => exact absurd rfl h
    | cons c cs =>
      show chunkFuel (c :: cs).length (c :: cs) = [c :: cs]
      rw [show (c :: cs).length = cs.length + 1 from rfl, chunkFuel,
        if_pos (le_of_lt hshort)]

/-- C4 witness: the three-token input `[0, 1, 2]` has at least one chunk and
is short enough to be exactly one chunk. -/
theorem C4_chunker_coverage_witness :
    1 ≤ (chunkText [0, 1, 2]).length ∧ chunkText [0, 1, 2] = [[0, 1, 2]] :=
  ⟨(C4_chunker_coverage [0, 1, 2]).2.1 (by decide),
   (C4_chunker_coverage [0, 1, 2]).2.2.1 (by decide) (by decide)⟩

/-- C1: `validate` returns confidence 1.0 with no cited ids when the answer
has no citation markers and declines; the fixed low penalty (strictly between
0 and 1) when it has no markers and does not decline; `valid / total` with
`cited_ids` the deduplicated valid markers when it has at least one marker;
in particular confidence 1.0 when every marker is present in the evidence,
and confidence 0.0 with empty `cited_ids` when its only marker is absent. -/
theorem C1_citation_validation (answer : String) (declines : Bool)
    (evidence : List String) :
    (extractMarkers answer = [] → declines = true →
      validate answer declines evidence = ⟨1, []⟩) ∧
    (extractMarkers answer = [] → declines = false →
      validate answer declines evidence = ⟨penaltyScore, []⟩ ∧
      0 < penaltyScore ∧ penaltyScore < 1) ∧
    (extractMarkers answer ≠ [] →
      validate answer declines evidence =
        ⟨((((extractMarkers answer).filter
              (fun m => decide (m ∈ evidence))).length : ℚ) /
            ((extractMarkers answer).length : ℚ)),
          ((extractMarkers answer).filter
            (fun m => decide (m ∈ evidence))).dedup⟩) ∧
    ((∀ m ∈ extractMarkers answer, m ∈ evidence) →
      extractMarkers answer ≠ [] →
      (validate answer declines evidence).confidence = 1 ∧
      (validate answer declines evidence).citedIds
        = (extractMarkers answer).dedup) ∧
    (∀ m : String, extractMarkers answer = [m] → m ∉ evidence →
      (validate answer declines evidence).confidence = 0 ∧
      (validate answer declines evidence).citedIds = []) := by
  refine ⟨?_, ?_, ?_, ?_, ?_⟩
  · intro hM hd
    simp [validate, hM, hd]
  · intro hM hd
    refine ⟨by simp [validate, hM, hd], by norm_num [penaltyScore],
      by norm_num [penaltyScore]⟩
  · intro hM
    simp [validate, hM]
  · intro hall hM
    have hfilter : (extractMarkers answer).filter (fun m => decide (m ∈ evidence))
        = extractMarkers answer :=
      List.filter_eq_self.mpr (fun m hm => by simpa using hall m hm)
    have hlen : ((extractMarkers answer).length : ℚ) ≠ 0 := by
      exact_mod_cast fun h =>
        hM (List.length_eq_zero.mp (by exact_mod_cast h))
    constructor
    · simp only [validate, List.isEmpty_eq_true, hM, if_false, hfilter]
      exact div_self hlen
    · simp only [validate, List.isEmpty_eq_true, hM, if_false, hfilter]
  · intro m hM hm
    have hfilter : (extractMarkers answer).filter (fun m => decide (m ∈ evidence))
        = [] := by
      rw [hM]
      simp [hm]
    constructor
    · simp only [validate, List.isEmpty_eq_true, hM, hfilter]
      simp [hm]
    · simp only [validate, List.isEmpty_eq_true, hM, hfilter]
      simp [hm]

/-- C1 witness: a declining answer with no markers has confidence 1; an
answer with no markers that does not decline gets the penalty score; the
answer `Works [PMID: 123].` against evidence 123, 456 has confidence 1 and
cited ids 123; the answer `Bad [PMID: 999].` against evidence 123 has
confidence 0 and no cited ids. -/
theorem C1_citation_validation_witness :
    validate "The evidence is insufficient to answer." true ["123"] = ⟨1, []⟩ ∧
    validate "It just works." false ["123"] = ⟨penaltyScore, []⟩ ∧
    (validate "Works [PMID: 123]." false ["123", "456"]).confidence = 1 ∧
    (validate "Works [PMID: 123]." false ["123", "456"]).citedIds = ["123"] ∧
    (validate "Bad [PMID: 999]." false ["123"]).confidence = 0 ∧
    (validate "Bad [PMID: 999]." false ["123"]).citedIds = [] := by
  refine ⟨(C1_citation_validation _ true ["123"]).1 (by decide) rfl,
    ((C1_citation_validation _ false ["123"]).2.1 (by decide) rfl).1,
    ?_, by decide, ?_, by decide⟩
  · exact ((C1_citation_validation "Works [PMID: 123]." false
      ["123", "456"]).2.2.2.1 (by decide) (by decide)).1
  · exact ((C1_citation_validation "Bad [PMID: 999]." false
      ["123"]).2.2.2.2 "999" (by decide) (by decide)).1

/-- `hasKey` over a cons cell. -/
theorem hasKey_cons (p : String × String) (l : List (String × String))
    (k : String) : hasKey (p :: l) k = (p.1 == k || hasKey l k) := by
  simp [hasKey]

/-- `hasKey` distributes over append. -/
theorem hasKey_append (l l' : List (String × String)) (k : String) :
    hasKey (l ++ l') k = (hasKey l k || hasKey l' k) := by
  simp [hasKey]

/-- A numeric parameter is present exactly for its own key and a truthy
option. -/
theorem hasKey_numParam (key k : String) (o : Option Int) :
    hasKey (numParam key o) k = (key == k && numTruthy o) := by
  cases o with
  | none => simp [numParam, numTruthy, hasKey]
  | some n => by_cases h : n = 0 <;> simp [numParam, numTruthy, hasKey, h]

/-- A string parameter is present exactly for its own key and a truthy
option. -/
theorem hasKey_strParam (key k : String) (o : Option String) :
    hasKey (strParam key o) k = (key == k && strTruthy o) := by
  cases o with
  | none => simp [strParam, strTruthy, hasKey]
  | some s => by_cases h : s = "" <;> simp [strParam, strTruthy, hasKey, h]

/-- The rerank parameter is present exactly when the option is defined. -/
theorem hasKey_rerankParam (k : String) (o : Option Bool) :
    hasKey (rerankParam o) k = (("rerank" : String) == k && o.isSome) := by
  cases o <;> simp [rerankParam, hasKey]

/-- C3: the client RAG response type is, field for field, the spec §6
query-output shape — the two shapes convert to each other with both
round-trips the identity, the code naming the per-source identifier field
`pmid` where the spec says `identifier`. -/
theorem C3_rag_response_shape :
    (∀ r : RAGResponse, ragOfSpec (ragToSpec r) = r) ∧
    (∀ s : SpecRAGResponse, ragToSpec (ragOfSpec s) = s) ∧
    (∀ r : RAGResponse,
      (ragToSpec r).sources.map (fun s => s.identifier)
        = r.sources.map (fun s => s.pmid)) := by
  have h1 : ∀ s : RAGSource, sourceOfSpec (sourceToSpec s) = s := fun _ => rfl
  have h2 : ∀ s : SpecSource, sourceToSpec (sourceOfSpec s) = s := fun _ => rfl
  have hc1 : sourceOfSpec ∘ sourceToSpec = id := funext h1
  have hc2 : sourceToSpec ∘ sourceOfSpec = id := funext h2
  refine ⟨?_, ?_, ?_⟩
  · intro r
    cases r with
    | mk a srcs c t sid cu =>
      simp only [ragToSpec, ragOfSpec, List.map_map, hc1, List.map_id]
  · intro s
    cases s with
    | mk a srcs c t sid cu =>
      simp only [ragToSpec, ragOfSpec, List.map_map, hc2, List.map_id]
  · intro r
    simp [ragToSpec, List.map_map, Function.comp, sourceToSpec]

/-- C7: every client search response projects onto the spec §6 search-output
shape — the papers' relevance scores in delivered order plus `total`, `page`,
`query_time_ms` — and `PaperCard`'s percentage rendering maps a
`relevance_score` in [0,1] to a percentage in [0,100]. -/
theorem C7_search_output_shape :
    (∀ resp : SearchResponse,
      searchSpecView resp =
        ⟨resp.results.map (fun p => p.relevance_score), resp.total,
          resp.page, resp.query_time_ms⟩) ∧
    (∀ p : SearchResult, 0 ≤ p.relevance_score → p.relevance_score ≤ 1 →
      0 ≤ relevancePercent p ∧ relevancePercent p ≤ 100) := by
  refine ⟨fun _ => rfl, ?_⟩
  intro p h0 h1
  constructor
  · rw [relevancePercent, round_eq]
    exact Int.floor_nonneg.mpr (by nlinarith)
  · rw [relevancePercent, round_eq]
    have h100 : ⌊(201 : ℚ) / 2⌋ = 100 := by norm_num [Int.floor_eq_iff]
    calc ⌊p.relevance_score * 100 + 1 / 2⌋ ≤ ⌊(201 : ℚ) / 2⌋ :=
          Int.floor_le_floor (by nlinarith)
    _ = 100 := h100

/-- C7 witness: a paper with relevance score 0.87 renders to a percentage
within [0,100]. -/
theorem C7_search_output_shape_witness :
    0 ≤ relevancePercent
        ⟨"31452104", "t", none, 87 / 100, none, none, [], 0, []⟩ ∧
    relevancePercent
        ⟨"31452104", "t", none, 87 / 100, none, none, [], 0, []⟩ ≤ 100 :=
  C7_search_output_shape.2 _ (by norm_num) (by norm_num)

/-- C8: the built query parameters always start with `q = query`; `limit`,
`offset`, `year_start`, `year_end` are present iff their option is truthy (so
a 0 value is silently omitted); `rerank` is present iff the option is
defined, so `rerank = false` is sent explicitly as the string `false`. -/
theorem C8_search_params (q : String) (o : SearchOptions) :
    (buildSearchParams q o).head? = some ("q", q) ∧
    hasKey (buildSearchParams q o) "limit" = numTruthy o.limit ∧
    hasKey (buildSearchParams q o) "offset" = numTruthy o.offset ∧
    hasKey (buildSearchParams q o) "year_start" = numTruthy o.year_start ∧
    hasKey (buildSearchParams q o) "year_end" = numTruthy o.year_end ∧
    hasKey (buildSearchParams q o) "rerank" = o.rerank.isSome ∧
    (o.limit = some 0 → hasKey (buildSearchParams q o) "limit" = false) ∧
    (o.offset = some 0 → hasKey (buildSearchParams q o) "offset" = false) ∧
    (o.rerank = some false → ("rerank", "false") ∈ buildSearchParams q o) := by
  have expand : ∀ k, hasKey (buildSearchParams q o) k =
      (("q" : String) == k ||
        ((("limit" : String) == k && numTruthy o.limit) ||
          ((("offset" : String) == k && numTruthy o.offset) ||
            ((("year_start" : String) == k && numTruthy o.year_start) ||
              ((("year_end" : String) == k && numTruthy o.year_end) ||
                ((("journals" : String) == k && strTruthy o.journals) ||
                  ((("sort_by" : String) == k && strTruthy o.sort_by) ||
                    (("rerank" : String) == k && o.rerank.isSome)))))))) := by
    intro k
    simp only [buildSearchParams, hasKey_cons, hasKey_append, hasKey_numParam,
      hasKey_strParam, hasKey_rerankParam, Bool.or_assoc]
  refine ⟨rfl, ?_, ?_, ?_, ?_, ?_, ?_, ?_, ?_⟩
  · rw [expand]; simp
  · rw [expand]; simp
  · rw [expand]; simp
  · rw [expand]; simp
  · rw [expand]; simp
  · intro h; rw [expand]; simp [h, numTruthy]
  · intro h; rw [expand]; simp [h, numTruthy]
  · intro h
    simp [buildSearchParams, rerankParam, h, boolStr]

/-- C8 witness: with `limit = 0` and `rerank = false`, the built parameters
omit `limit` and carry `rerank=false` explicitly. -/
theorem C8_search_params_witness :
    hasKey (buildSearchParams "cancer"
      ⟨some 0, some 10, none, none, none, none, some false⟩) "limit"
      = false ∧
    ("rerank", "false") ∈ buildSearchParams "cancer"
      ⟨some 0, some 10, none, none, none, none, some false⟩ :=
  ⟨(C8_search_params "cancer" _).2.2.2.2.2.2.1 rfl,
   (C8_search_params "cancer" _).2.2.2.2.2.2.2.2 rfl⟩

/-- C5 counterexample: with weights 2 and -1 (which sum to 1) and similarities
1 and 0 (each in [0,1]), the hybrid score is 2, outside [0,1].  The claim as
stated — weights only required to sum to 1 — is therefore false. -/
theorem C5_hybrid_counterexample :
    (2 : ℚ) + (-1) = 1 ∧
    (0 : ℚ) ≤ 1 ∧ (1 : ℚ) ≤ 1 ∧ (0 : ℚ) ≤ 0 ∧ (0 : ℚ) ≤ 1 ∧
    hybridScore 2 (-1) 1 0 = 2 ∧ ¬ hybridScore 2 (-1) 1 0 ≤ 1 := by
  refine ⟨by norm_num, by norm_num, le_refl _, le_refl _, by norm_num, ?_, ?_⟩ <;>
    simp [hybridScore]

/-- C5 (amended): under the default weights the hybrid score equals
`0.7 * content + 0.3 * citation`; and whenever the similarities lie in [0,1]
and the weights are nonnegative and sum to 1, the hybrid score lies in
[0,1]. -/
theorem C5_hybrid_score (wc wk c k : ℚ) :
    defaultContentWeight = 7 / 10 ∧ defaultCitationWeight = 3 / 10 ∧
    hybridScore defaultContentWeight defaultCitationWeight c k
      = 7 / 10 * c + 3 / 10 * k ∧
    (0 ≤ wc → 0 ≤ wk → wc + wk = 1 →
      0 ≤ c → c ≤ 1 → 0 ≤ k → k ≤ 1 →
      0 ≤ hybridScore wc wk c k ∧ hybridScore wc wk c k ≤ 1) := by
  refine ⟨rfl, rfl, rfl, ?_⟩
  intro hwc hwk hsum hc0 hc1 hk0 hk1
  constructor
  · exact add_nonneg (mul_nonneg hwc hc0) (mul_nonneg hwk hk0)
  · calc wc * c + wk * k ≤ wc * 1 + wk * 1 := by
          exact add_le_add (mul_le_mul_of_nonneg_left hc1 hwc)
            (mul_le_mul_of_nonneg_left hk1 hwk)
    _ = 1 := by rw [mul_one, mul_one, hsum]

/-- C5 witness: the amended bound at the default weights and
similarities 1/2, 1/2. -/
theorem C5_hybrid_score_witness :
    0 ≤ hybridScore (7 / 10) (3 / 10) (1 / 2) (1 / 2) ∧
    hybridScore (7 / 10) (3 / 10) (1 / 2) (1 / 2) ≤ 1 :=
  (C5_hybrid_score (7 / 10) (3 / 10) (1 / 2) (1 / 2)).2.2.2
    (by norm_num) (by norm_num) (by norm_num)
    (by norm_num) (by norm_num) (by norm_num) (by norm_num)

/-- C6: `put(fp, r, ttl); get(fp)` before the ttl elapses returns `r`
unchanged; once the ttl has elapsed it returns absent; a lazy `get` never
returns an expired entry from any cache state; and background eviction keeps
only unexpired entries. -/
theorem C6_cache_ttl {α : Type} (c : List (CacheEntry α)) (fp : String)
    (r : α) (ttl now t : Nat) :
    (t < now + ttl → cacheGet (cachePut c fp r ttl now) fp t = some r) ∧
    (now + ttl ≤ t → cacheGet (cachePut c fp r ttl now) fp t = none) ∧
    (∀ r' : α, cacheGet c fp t = some r' →
      ∃ e ∈ c, e.fp = fp ∧ e.response = r' ∧ t < e.expiresAt) ∧
    (∀ e ∈ cacheEvict c now, now < e.expiresAt) := by
  have hfind : (cachePut c fp r ttl now).find? (fun e => e.fp == fp)
      = some ⟨fp, r, now + ttl⟩ := by
    unfold cachePut
    exact List.find?_cons_of_pos _ (by simp)
  refine ⟨?_, ?_, ?_, ?_⟩
  · intro h
    unfold cacheGet
    rw [hfind]
    simp [h]
  · intro h
    unfold cacheGet
    rw [hfind]
    simp [Nat.not_lt.mpr h]
  · intro r' h
    unfold cacheGet at h
    cases hf : c.find? (fun e => e.fp == fp) with
    | none => rw [hf] at h; exact absurd h (by simp)
    | some e =>
      rw [hf] at h
      by_cases ht : t < e.expiresAt
      · refine ⟨e, List.mem_of_find?_eq_some hf, ?_, ?_, ht⟩
        · have := List.find?_some hf
          simpa using this
        · simpa [ht] using h
      · simp [ht] at h
  · intro e he
    have := List.mem_filter.mp he
    simpa using this.2

/-- C6 witness: on the empty cache, `put` of the response 42 at time 0 with
the reference 7-day ttl is readable at time 5 and absent once the ttl has
elapsed. -/
theorem C6_cache_ttl_witness :
    cacheGet (cachePut ([] : List (CacheEntry Nat)) "q" 42 ragCacheTtl 0) "q" 5
      = some 42 ∧
    cacheGet (cachePut ([] : List (CacheEntry Nat)) "q" 42 ragCacheTtl 0) "q"
      ragCacheTtl = none :=
  ⟨(C6_cache_ttl [] "q" 42 ragCacheTtl 0 5).1 (by norm_num [ragCacheTtl]),
   (C6_cache_ttl [] "q" 42 ragCacheTtl 0 ragCacheTtl).2.1 (by norm_num)⟩

/-- C9: after `logout` completes — whether or not `POST /auth/logout`
succeeded — both tokens are gone from localStorage and the store state is
`user = null`, `isAuthenticated = false`, because the cleanup runs in the
finally block; a server failure still surfaces as a rejection. -/
theorem C9_logout_cleans_up (serverOk : Bool) (s : ClientState) :
    (logout serverOk s).2.storage.access_token = none ∧
    (logout serverOk s).2.storage.refresh_token = none ∧
    (logout serverOk s).2.state.user = none ∧
    (logout serverOk s).2.state.isAuthenticated = false ∧
    (logout false s).1 = Except.error () := by
  cases serverOk <;> simp [logout, authApiLogout]

/-- C10: when the analytics call failed (`trends = null`) or the payload has
no `keywords` field, the page renders the hardcoded mock list — eight entries
starting with immunotherapy, CRISPR, COVID-19 — and renders the real keyword
list whenever one is present. -/
theorem C10_trends_mock_fallback :
    displayTrends none = mockTrends ∧
    (∀ t : TrendData, t.keywords = none → displayTrends (some t) = mockTrends) ∧
    (∀ (t : TrendData) (ks : List KeywordTrend),
      t.keywords = some ks → displayTrends (some t) = ks) ∧
    mockTrends.length = 8 ∧
    (mockTrends.map (fun e => e.keyword)).take 3
      = ["immunotherapy", "CRISPR", "COVID-19"] := by
  refine ⟨rfl, ?_, ?_, rfl, rfl⟩
  · intro t ht; simp [displayTrends, ht]
  · intro t ks ht; simp [displayTrends, ht]

/-- C10 witness: a payload with no `keywords` field shows the mock list, and a
payload with a singleton keyword list shows exactly that list. -/
theorem C10_trends_mock_fallback_witness :
    displayTrends (some { keywords := none, period := some "month" }) = mockTrends ∧
    displayTrends (some { keywords := some [⟨"CRISPR", 1, 0⟩], period := none })
      = [⟨"CRISPR", 1, 0⟩] :=
  ⟨(C10_trends_mock_fallback.2.1 _ rfl),
   (C10_trends_mock_fallback.2.2.1 _ _ rfl)⟩

end BioRag
